import Mathlib

/-!
Shallow embedding of the core subsystems of the `cts` repository
(parameter combinators, checklist tooling loop, and the device resource
pool), with theorems checking the specification's claims against it.

JavaScript values that parameter records hold are modelled by an abstract
type `V` with decidable equality; Lean equality on `V` stands for the
JavaScript `===` on the (primitive or reference) values.  A JavaScript
object used as a record is modelled as an association list
`List (String × V)`; JavaScript objects cannot carry a duplicate key, and
lookups below take the first binding, which coincides with object
semantics on all lists that arise from them.
-/

namespace Params

/-- A `ParamsSpec` record: string keys mapped to values. -/
abbrev ParamsSpec (V : Type) : Type := List (String × V)

/-- JavaScript `o.hasOwnProperty(k)`. -/
def hasOwnProperty {V : Type} (o : ParamsSpec V) (k : String) : Bool :=
  o.any fun kv => kv.1 == k

/-- JavaScript `o[k]` (as an `Option`, `none` when the key is absent). -/
def getProp {V : Type} (o : ParamsSpec V) (k : String) : Option V :=
  (o.find? fun kv => kv.1 == k).map fun kv => kv.2

/-- JavaScript `Object.keys(o)`. -/
def keys {V : Type} (o : ParamsSpec V) : List String :=
  o.map fun kv => kv.1

/-- Embedding of `paramsEquals` from `src/framework/params/index.ts`.
`null` arguments are modelled by `none`.  The source's initial `x === y`
reference-equality fast path is included as list equality: reference-equal
JavaScript objects are equal lists here, and the extra cases the list
equality admits return `true` through the two key loops anyway. -/
def paramsEquals {V : Type} [DecidableEq V]
    (x y : Option (ParamsSpec V)) : Bool :=
  match x, y with
  | none, none => true
  | none, some _ => false
  | some _, none => false
  | some xo, some yo =>
    xo == yo ||
    (((keys xo).all fun xk =>
        hasOwnProperty yo xk && (getProp xo xk == getProp yo xk)) &&
      ((keys yo).all fun yk => hasOwnProperty xo yk))

/-- Embedding of `paramsSupersets` from `src/framework/params/index.ts`. -/
def paramsSupersets {V : Type} [DecidableEq V]
    (sup sub : Option (ParamsSpec V)) : Bool :=
  match sub with
  | none => true
  | some subo =>
    match sup with
    | none => false
    | some supo =>
      (keys subo).all fun k =>
        hasOwnProperty supo k && (getProp supo k == getProp subo k)

/-- Result of running a JavaScript generator to exhaustion: either it
finished, or it threw after yielding a prefix of its output. -/
inductive GenResult (α : Type) where
  | done : List α → GenResult α
  | thrown : List α → String → GenResult α
deriving DecidableEq, Repr

/-- The records a generator run yielded (whether or not it then threw). -/
def GenResult.yielded {α : Type} : GenResult α → List α
  | .done out => out
  | .thrown out _ => out

/-- Whether the generator run ended in a throw. -/
def GenResult.throws {α : Type} : GenResult α → Bool
  | .done _ => false
  | .thrown _ _ => true

/-- JavaScript spread `{ [key]: value, ...p }` (only reached when `p` does
not contain `key`, so no overwriting occurs). -/
def mergeTag {V : Type} (key : String) (value : V) (p : ParamsSpec V) :
    ParamsSpec V :=
  (key, value) :: p

/-- Inner loop of `pvariant` over the records of one sub-iterable. -/
def pvariantSub {V : Type} (key : String) (value : V) :
    List (ParamsSpec V) → GenResult (ParamsSpec V)
  | [] => .done []
  | p :: ps =>
    if hasOwnProperty p key then
      .thrown [] "pvariant entry has a key that collides with the pvariant key"
    else
      match pvariantSub key value ps with
      | .done out => .done (mergeTag key value p :: out)
      | .thrown out msg => .thrown (mergeTag key value p :: out) msg

/-- Embedding of the generator `pvariant` from
`src/framework/params/variant.ts`, run to exhaustion. -/
def pvariant {V : Type} (key : String) :
    List (V × List (ParamsSpec V)) → GenResult (ParamsSpec V)
  | [] => .done []
  | (value, params) :: rest =>
    match pvariantSub key value params with
    | .thrown out msg => .thrown out msg
    | .done out =>
      match pvariant key rest with
      | .done out2 => .done (out ++ out2)
      | .thrown out2 msg => .thrown (out ++ out2) msg

/-- The records of a variants list flattened in iteration order, each
paired with its tag value. -/
def flatRecords {V : Type} (variants : List (V × List (ParamsSpec V))) :
    List (V × ParamsSpec V) :=
  variants.flatMap fun vp => vp.2.map fun p => (vp.1, p)

end Params

namespace Checklist

/-!
Embedding of the main routine of `src/common/tools/checklist.ts`.  The
query type and the comparison functions (`compareQueries` lives outside
the sources at hand) are abstract parameters; only the loop structure of
the tool is embedded.  `die` prints one message and calls
`process.exit(1)`, so a run produces at most one reported violation,
modelled by an `Option`.
-/

/-- The four-valued `Ordering` enum of the query-comparison engine. -/
inductive Ordering where
  | Equal
  | StrictSubset
  | StrictSuperset
  | Unordered
deriving DecidableEq, Repr

/-- A violation `die` can report: an overlapping pair of queries
(identified by their positions in the list, since the source compares
object references `q1 !== q2`), or a case covered by no query. -/
inductive Violation (C : Type) where
  | overlap (i j : Nat)
  | uncoveredCase (c : C)
deriving DecidableEq, Repr

/-- The overlap scan: the first pair of distinct entries whose comparison
is not `Unordered`, in the nested-loop scan order of the source. -/
def findOverlap {Q : Type} (cmp : Q → Q → Ordering) (qs : List Q) :
    Option (Nat × Nat) :=
  qs.enum.findSome? fun iq =>
    qs.enum.findSome? fun jq =>
      if iq.1 != jq.1 && cmp iq.2 jq.2 != Ordering.Unordered then
        some (iq.1, jq.1)
      else none

/-- Whether some query in the list covers the case (comparison yields
`StrictSuperset` or `Equal`), as in the `caseloop` of the source. -/
def covered {Q C : Type} (cmp : Q → C → Ordering) (qs : List Q) (c : C) :
    Bool :=
  qs.any fun q =>
    cmp q c == Ordering.StrictSuperset || cmp q c == Ordering.Equal

/-- The coverage scan: the first case no query covers. -/
def findUncovered {Q C : Type} (cmp : Q → C → Ordering) (qs : List Q)
    (cases : List C) : Option C :=
  cases.find? fun c => !covered cmp qs c

/-- One suite iteration of the checklist tool: the overlap scan runs
first and `die` exits on its first hit; otherwise the coverage scan runs
and `die` exits on its first hit; otherwise no violation is reported. -/
def checklistRun {Q C : Type} (cmpQQ : Q → Q → Ordering)
    (cmpQC : Q → C → Ordering) (qs : List Q) (cases : List C) :
    Option (Violation C) :=
  match findOverlap cmpQQ qs with
  | some ij => some (.overlap ij.1 ij.2)
  | none =>
    match findUncovered cmpQC qs cases with
    | some c => some (.uncoveredCase c)
    | none => none

end Checklist

namespace DevicePool

/-!
Embedding of `src/webgpu/util/device_pool.ts`.  The underlying WebGPU
device is external: a `GPUDevice` is identified by a numeric id, the
outcome of `DeviceHolder.create` is an oracle argument, and the device's
behaviour during the error-scope drain of a release is a `DrainBehavior`
record of oracle flags.  Descriptor canonicalization happens before the
pool logic consumes a key (`canonicalizeDescriptor` feeds `getOrCreate`
a string); the embedding takes the canonical key directly.
-/

/-- The three lifecycle states of a `DeviceHolder`. -/
inductive HolderState where
  | free
  | reserved
  | acquired
deriving DecidableEq, Repr

/-- A `DeviceHolder`: its device (by id), its state, the reason of the
device-lost notification if one arrived (`lostInfo`), and the expected
lost reason set by `expectDeviceLost`. -/
structure DeviceHolder where
  device : Nat
  state : HolderState
  lostReason : Option String
  expectedLostReason : Option String
deriving DecidableEq, Repr

/-- The fixed pool capacity from the source. -/
def kDevicePoolSize : Nat := 20

/-- The `DeviceHolderPool`: negative cache of unsupported keys, and the
recency-ordered list of `(key, holder)` entries (most recently used at
the tail). -/
structure DeviceHolderPool where
  poolSize : Nat
  unsupported : List String
  holders : List (String × DeviceHolder)
deriving DecidableEq, Repr

/-- The devices of the holders currently in the pool. -/
def DeviceHolderPool.devices (pool : DeviceHolderPool) : List Nat :=
  pool.holders.map fun e => e.2.device

/-- The list part of `deleteByDevice`: remove the first entry holding the
given device (the source's loop splices one entry and returns). -/
def deleteFirstByDevice : List (String × DeviceHolder) → Nat →
    List (String × DeviceHolder)
  | [], _ => []
  | e :: rest, d =>
    if e.2.device = d then rest else e :: deleteFirstByDevice rest d

/-- Embedding of `DeviceHolderPool.deleteByDevice`. -/
def deleteByDevice (pool : DeviceHolderPool) (device : Nat) :
    DeviceHolderPool :=
  { pool with holders := deleteFirstByDevice pool.holders device }

/-- The free-holder search of `getOrCreate`: the first entry whose holder
is `free` (the source checks only the state, not the entry's key),
returned together with the list with that entry spliced out. -/
def extractFirstFree : List (String × DeviceHolder) →
    Option ((String × DeviceHolder) × List (String × DeviceHolder))
  | [] => none
  | e :: rest =>
    if e.2.state = HolderState.free then some (e, rest)
    else
      match extractFirstFree rest with
      | none => none
      | some fr => some (fr.1, e :: fr.2)

/-- Embedding of `DeviceHolderPool.insertAndCleanUp`: push the entry,
then drop the head (least recently used) if the list is over capacity. -/
def insertAndCleanUp (pool : DeviceHolderPool) (key : String)
    (holder : DeviceHolder) : DeviceHolderPool :=
  let hs := pool.holders ++ [(key, holder)]
  { pool with
    holders := if hs.length > pool.poolSize then hs.tail else hs }

/-- Oracle for the outcome of `DeviceHolder.create(descriptor)`. -/
inductive CreateResult where
  | success (holder : DeviceHolder)
  | featuresNotSupported
  | otherError
deriving DecidableEq, Repr

/-- Outcome of `getOrCreate`: a holder was returned, a `SkipTestCase` was
thrown, or another error was rethrown; each carries the pool state after
the call. -/
inductive GetOrCreateResult where
  | returned (holder : DeviceHolder) (pool : DeviceHolderPool)
  | skip (pool : DeviceHolderPool)
  | error (pool : DeviceHolderPool)
deriving DecidableEq, Repr

/-- The pool state after a `getOrCreate` call. -/
def GetOrCreateResult.pool : GetOrCreateResult → DeviceHolderPool
  | .returned _ p => p
  | .skip p => p
  | .error p => p

/-- Embedding of `DeviceHolderPool.getOrCreate` on the canonical key:
quick-reject keys in the negative cache; otherwise return the first free
holder, moved to the most-recently-used end with its own key; otherwise
attempt construction, caching the key and skipping on
`FeaturesNotSupported`, and inserting on success. -/
def getOrCreate (pool : DeviceHolderPool) (key : String)
    (create : CreateResult) : GetOrCreateResult :=
  if key ∈ pool.unsupported then .skip pool
  else
    match extractFirstFree pool.holders with
    | some er => .returned er.1.2 { pool with holders := er.2 ++ [er.1] }
    | none =>
      match create with
      | .success h => .returned h (insertAndCleanUp pool key h)
      | .featuresNotSupported =>
        .skip { pool with unsupported := key :: pool.unsupported }
      | .otherError => .error pool

/-- The error classes that can escape the release path, collapsed to the
distinction the pool logic makes: `TestFailedButDeviceReusable`,
`TestOOMedShouldAttemptGC`, and everything else (assertion failures,
rethrown `popErrorScope` rejections, the drain timeout). -/
inductive ReleaseError where
  | testFailedButDeviceReusable
  | testOOMedShouldAttemptGC
  | otherError
deriving DecidableEq, Repr

/-- Oracle for the external device's behaviour while a holder is
released: whether the `raceWithRejectOnTimeout` around the drain fired,
whether the two whole-test `popErrorScope()` calls rejected (device
lost), what the validation and out-of-memory scopes captured, whether an
extra error scope was left on the stack, and whether the device object
has a `destroy` method. -/
structure DrainBehavior where
  timedOut : Bool
  popRejects : Bool
  validationError : Bool
  oomError : Bool
  extraScope : Bool
  hasDestroy : Bool
deriving DecidableEq, Repr

/-- Embedding of the private `DeviceHolder.release`: rethrow a
`popErrorScope` rejection (through the lost-device assertion), assert no
extra error scope remained, then turn a captured validation error into
`TestFailedButDeviceReusable` and a captured out-of-memory error into
`TestOOMedShouldAttemptGC`. -/
def DeviceHolder.releaseCheck (b : DrainBehavior) : Option ReleaseError :=
  if b.popRejects then some .otherError
  else if b.extraScope then some .otherError
  else if b.validationError then some .testFailedButDeviceReusable
  else if b.oomError then some .testOOMedShouldAttemptGC
  else none

/-- Embedding of `DeviceHolder.ensureRelease`: the leading assertion
rejects a `free` holder before the `try` (leaving the state untouched);
otherwise the drain runs only from `acquired` (bounded by the timeout),
and the `finally` always sets the state to `free`. The result is the
thrown error, if any, together with the holder's state afterwards. -/
def DeviceHolder.ensureRelease (state : HolderState) (b : DrainBehavior) :
    Option ReleaseError × HolderState :=
  if state = HolderState.free then (some .otherError, state)
  else
    let err :=
      if state = HolderState.acquired then
        if b.timedOut then some ReleaseError.otherError
        else DeviceHolder.releaseCheck b
      else none
    (err, HolderState.free)

/-- The error thrown inside the `try` block of `DevicePool.release`: the
error of `ensureRelease` if any, otherwise the failure of the
`holder.lostInfo === undefined` assertion when the device was lost. -/
def releaseCheckEx (h : DeviceHolder) (b : DrainBehavior) :
    Option ReleaseError :=
  match (DeviceHolder.ensureRelease h.state b).1 with
  | some e => some e
  | none => if h.lostReason.isSome then some .otherError else none

/-- The `expectedDeviceLost` condition of `DevicePool.release`. -/
def expectedDeviceLost (h : DeviceHolder) : Bool :=
  match h.expectedLostReason, h.lostReason with
  | some er, some lr => er == lr
  | _, _ => false

/-- Outcome of `DevicePool.release`: the pool afterwards, the holder
afterwards, the error propagated to the caller (if any), and whether the
holder's device was destroyed. -/
structure ReleaseResult where
  pool : DeviceHolderPool
  holder : DeviceHolder
  thrown : Option ReleaseError
  destroyed : Bool
deriving DecidableEq, Repr

/-- Embedding of `DevicePool.release`.  The assertion that the holder is
not `free` throws before the `try`, so a `free` holder is untouched.
Otherwise: run the check; on an error that is not
`TestFailedButDeviceReusable`, delete the holder's device from the pool
and destroy the device (if it has `destroy`); swallow the error when the
loss was the expected one; the `finally` marks the holder `free`. -/
def release (pool : DeviceHolderPool) (h : DeviceHolder)
    (b : DrainBehavior) : ReleaseResult :=
  if h.state = HolderState.free then
    ⟨pool, h, some .otherError, false⟩
  else
    match releaseCheckEx h b with
    | none => ⟨pool, { h with state := HolderState.free }, none, false⟩
    | some e =>
      let del := e ≠ ReleaseError.testFailedButDeviceReusable
      let pool' := if del then deleteByDevice pool h.device else pool
      let destroyed := del && b.hasDestroy
      let thrown := if expectedDeviceLost h then none else some e
      ⟨pool', { h with state := HolderState.free }, thrown, destroyed⟩

end DevicePool

namespace Params

theorem hasOwnProperty_iff {V : Type} (o : ParamsSpec V) (k : String) :
    hasOwnProperty o k = true ↔ k ∈ keys o := by
  simp [hasOwnProperty, keys, List.any_eq_true]

/-- C8: `paramsEquals(x, y)` is true exactly when `x` and `y` are the same
reference (same value in the embedding), or both are records with
identical key sets and `===`-equal values at every key. -/
theorem paramsEquals_eq_true_iff {V : Type} [DecidableEq V]
    (x y : Option (ParamsSpec V)) :
    paramsEquals x y = true ↔
      (x = y ∨ ∃ xo yo, x = some xo ∧ y = some yo ∧
        (∀ k, k ∈ keys xo ↔ k ∈ keys yo) ∧
        (∀ k ∈ keys xo, getProp xo k = getProp yo k)) := by
  cases x with
  | none =>
    cases y with
    | none => simp [paramsEquals]
    | some yo => simp [paramsEquals]
  | some xo =>
    cases y with
    | none => simp [paramsEquals]
    | some yo =>
      simp only [paramsEquals, Bool.or_eq_true, Bool.and_eq_true,
        List.all_eq_true, beq_iff_eq, Option.some.injEq]
      constructor
      · rintro (rfl | ⟨h1, h2⟩)
        · exact Or.inl rfl
        · refine Or.inr ⟨xo, yo, rfl, rfl, ?_, ?_⟩
          · intro k
            constructor
            · intro hk
              rcases (List.mem_map).1 hk with ⟨kv, hmem, hfst⟩
              have := (h1 kv.1 ((List.mem_map).2 ⟨kv, hmem, rfl⟩)).1
              rw [← hfst]
              exact (hasOwnProperty_iff yo kv.1).1 this
            · intro hk
              rcases (List.mem_map).1 hk with ⟨kv, hmem, hfst⟩
              have := h2 kv.1 ((List.mem_map).2 ⟨kv, hmem, rfl⟩)
              rw [← hfst]
              exact (hasOwnProperty_iff xo kv.1).1 this
          · intro k hk
            rcases (List.mem_map).1 hk with ⟨kv, hmem, hfst⟩
            have := (h1 kv.1 ((List.mem_map).2 ⟨kv, hmem, rfl⟩)).2
            rw [← hfst]
            exact this
      · rintro (h | ⟨xo', yo', hx, hy, hkeys, hvals⟩)
        · subst h
          refine Or.inr ⟨?_, ?_⟩
          · intro k hk
            exact ⟨(hasOwnProperty_iff xo k).2 hk, rfl⟩
          · intro k hk
            exact (hasOwnProperty_iff xo k).2 hk
        · cases hx
          cases hy
          refine Or.inr ⟨?_, ?_⟩
          · intro k hk
            refine ⟨(hasOwnProperty_iff yo k).2 ((hkeys k).1 hk), ?_⟩
            exact hvals k hk
          · intro k hk
            exact (hasOwnProperty_iff xo k).2 ((hkeys k).2 hk)

/-- C9: `paramsSupersets(sup, sub)` is true exactly when `sub` is null, or
`sup` is a record and every key of `sub` is present in `sup` with a
`===`-equal value. -/
theorem paramsSupersets_eq_true_iff {V : Type} [DecidableEq V]
    (sup sub : Option (ParamsSpec V)) :
    paramsSupersets sup sub = true ↔
      (sub = none ∨ ∃ supo subo, sup = some supo ∧ sub = some subo ∧
        ∀ k ∈ keys subo, k ∈ keys supo ∧ getProp supo k = getProp subo k) := by
  cases sub with
  | none => simp [paramsSupersets]
  | some subo =>
    cases sup with
    | none => simp [paramsSupersets]
    | some supo =>
      simp only [paramsSupersets, List.all_eq_true, Bool.and_eq_true,
        beq_iff_eq, Option.some.injEq]
      constructor
      · intro h
        refine Or.inr ⟨supo, subo, rfl, rfl, ?_⟩
        intro k hk
        rcases (List.mem_map).1 hk with ⟨kv, hmem, hfst⟩
        have := h kv.1 ((List.mem_map).2 ⟨kv, hmem, rfl⟩)
        rw [← hfst]
        exact ⟨(hasOwnProperty_iff supo kv.1).1 this.1, this.2⟩
      · rintro (h | ⟨supo', subo', hsup, hsub, h⟩)
        · exact absurd h (by simp)
        · cases hsup
          cases hsub
          intro k hk
          rcases h k hk with ⟨hmem, hval⟩
          exact ⟨(hasOwnProperty_iff supo k).2 hmem, hval⟩

theorem takeWhile_append_of_any_not {α : Type} (p : α → Bool)
    (l1 l2 : List α) (h : l1.any (fun x => !p x) = true) :
    (l1 ++ l2).takeWhile p = l1.takeWhile p := by
  induction l1 with
  | nil => simp at h
  | cons a l ih =>
    cases ha : p a with
    | false => simp [List.takeWhile_cons, ha]
    | true =>
      simp only [List.any_cons, ha, Bool.not_true, Bool.false_or] at h
      simp [List.takeWhile_cons, ha, ih h]

theorem takeWhile_append_of_all {α : Type} (p : α → Bool)
    (l1 l2 : List α) (h : l1.all p = true) :
    (l1 ++ l2).takeWhile p = l1 ++ l2.takeWhile p := by
  induction l1 with
  | nil => simp
  | cons a l ih =>
    simp only [List.all_cons, Bool.and_eq_true] at h
    simp [List.takeWhile_cons, h.1, ih h.2]

theorem pvariantSub_eq {V : Type} (key : String) (value : V)
    (ps : List (ParamsSpec V)) :
    pvariantSub key value ps =
      if ps.any (fun p => hasOwnProperty p key) then
        GenResult.thrown
          ((ps.takeWhile fun p => !hasOwnProperty p key).map
            (mergeTag key value))
          "pvariant entry has a key that collides with the pvariant key"
      else GenResult.done (ps.map (mergeTag key value)) := by
  induction ps with
  | nil => simp [pvariantSub]
  | cons p ps ih =>
    cases h : hasOwnProperty p key with
    | true => simp [pvariantSub, h, List.takeWhile_cons]
    | false =>
      rw [pvariantSub, if_neg (by simp [h]), ih]
      cases h2 : ps.any fun p => hasOwnProperty p key with
      | true => simp [h, h2, List.takeWhile_cons]
      | false => simp [h, h2]

theorem flatRecords_cons {V : Type} (v : V) (ps : List (ParamsSpec V))
    (rest : List (V × List (ParamsSpec V))) :
    flatRecords ((v, ps) :: rest) =
      ps.map (fun p => (v, p)) ++ flatRecords rest := by
  simp [flatRecords]

theorem any_map_snd {V : Type} (key : String) (v : V)
    (ps : List (ParamsSpec V)) :
    ((ps.map fun p => (v, p)).any fun vp => hasOwnProperty vp.2 key) =
      ps.any fun p => hasOwnProperty p key := by
  induction ps with
  | nil => rfl
  | cons a l ih => simp [List.any_cons, ih]

theorem all_map_snd_of_any_false {V : Type} (key : String) (v : V)
    (ps : List (ParamsSpec V))
    (h : (ps.any fun p => hasOwnProperty p key) = false) :
    ((ps.map fun p => (v, p)).all fun vp => !hasOwnProperty vp.2 key) =
      true := by
  induction ps with
  | nil => rfl
  | cons a l ih =>
    simp only [List.any_cons, Bool.or_eq_false_iff] at h
    simp [List.all_cons, h.1, ih h.2]

theorem takeWhile_map_snd {V : Type} (key : String) (v : V)
    (ps : List (ParamsSpec V)) :
    ((ps.map fun p => (v, p)).takeWhile fun vp => !hasOwnProperty vp.2 key).map
        (fun vp => mergeTag key vp.1 vp.2) =
      (ps.takeWhile fun p => !hasOwnProperty p key).map (mergeTag key v) := by
  induction ps with
  | nil => rfl
  | cons a l ih =>
    cases h : hasOwnProperty a key with
    | true => simp [List.takeWhile_cons, h]
    | false => simp [List.takeWhile_cons, h, ih]

theorem map_mergeTag_snd {V : Type} (key : String) (v : V)
    (ps : List (ParamsSpec V)) :
    (ps.map fun p => (v, p)).map (fun vp => mergeTag key vp.1 vp.2) =
      ps.map (mergeTag key v) := by
  simp [List.map_map]

/-- C4 (amended): a key collision in `pvariant` throws at the first
colliding record: the records strictly before it (in iteration order over
the variants and their sub-iterables) are yielded, tagged, and the
colliding record itself is never yielded.  In particular, when the very
first record collides, the throw happens before any output. -/
theorem pvariant_collision_throws {V : Type} (key : String)
    (variants : List (V × List (ParamsSpec V)))
    (h : ((flatRecords variants).any fun vp => hasOwnProperty vp.2 key) =
      true) :
    pvariant key variants =
      GenResult.thrown
        (((flatRecords variants).takeWhile
            fun vp => !hasOwnProperty vp.2 key).map
          fun vp => mergeTag key vp.1 vp.2)
        "pvariant entry has a key that collides with the pvariant key" := by
  induction variants with
  | nil => simp [flatRecords] at h
  | cons vps rest ih =>
    obtain ⟨v, ps⟩ := vps
    rw [flatRecords_cons] at h ⊢
    rw [pvariant, pvariantSub_eq]
    cases h1 : ps.any fun p => hasOwnProperty p key with
    | true =>
      rw [if_pos rfl]
      rw [takeWhile_append_of_any_not _ _ _
        (by simpa [any_map_snd] using h1)]
      rw [takeWhile_map_snd]
    | false =>
      rw [if_neg (by simp)]
      have h2 : ((flatRecords rest).any fun vp => hasOwnProperty vp.2 key) =
          true := by
        rw [List.any_append, any_map_snd, h1, Bool.false_or] at h
        exact h
      rw [ih h2]
      rw [takeWhile_append_of_all _ _ _ (all_map_snd_of_any_false key v ps h1),
        List.map_append, map_mergeTag_snd]

/-- Witness for C8 at a concrete input. -/
theorem paramsEquals_eq_true_iff_witness :
    paramsEquals (some [(("a" : String), (1 : Nat))]) (some [("a", 1)]) =
      true :=
  (paramsEquals_eq_true_iff (some [(("a" : String), (1 : Nat))])
    (some [("a", 1)])).2 (Or.inl rfl)

/-- Witness for C9 at a concrete input. -/
theorem paramsSupersets_eq_true_iff_witness :
    paramsSupersets (some [(("a" : String), (1 : Nat)), ("b", 2)])
      (some [("a", 1)]) = true := by
  refine (paramsSupersets_eq_true_iff _ _).2 (Or.inr ⟨_, _, rfl, rfl, ?_⟩)
  decide

/-- C4 counterexample: with variants `[(0, [{a:1}, {k:2}])]` the second
record of the sub-iterable collides with the key `"k"`, yet `pvariant`
yields the first (tagged) record before throwing — so it does not throw
"before yielding any output record". -/
theorem pvariant_yields_before_throwing :
    hasOwnProperty [(("k" : String), (2 : Nat))] "k" = true ∧
    GenResult.throws
      (pvariant "k" [((0 : Nat), [[("a", 1)], [("k", 2)]])]) = true ∧
    ¬ GenResult.yielded
      (pvariant "k" [((0 : Nat), [[("a", 1)], [("k", 2)]])]) = [] := by
  refine ⟨by decide, ?_, ?_⟩ <;> decide

/-- Witness for the amended C4 at a concrete input whose first record
collides: the throw happens before any output. -/
theorem pvariant_collision_throws_witness :
    pvariant "k" [((0 : Nat), [[("k", 5)]])] =
      GenResult.thrown []
        "pvariant entry has a key that collides with the pvariant key" := by
  have h := pvariant_collision_throws "k" [((0 : Nat), [[("k", 5)]])]
    (by decide)
  exact h.trans (by decide)

end Params


namespace Checklist

theorem findOverlap_eq_none_iff {Q : Type} (cmp : Q → Q → Ordering)
    (qs : List Q) :
    findOverlap cmp qs = none ↔
      ∀ i j (hi : i < qs.length) (hj : j < qs.length), i ≠ j →
        cmp qs[i] qs[j] = Ordering.Unordered := by
  simp only [findOverlap, List.findSome?_eq_none_iff]
  constructor
  · intro h i j hi hj hne
    have hmem1 : (i, qs[i]) ∈ qs.enum :=
      (List.mk_mem_enum_iff_getElem?).2 (List.getElem?_eq_getElem hi)
    have hmem2 : (j, qs[j]) ∈ qs.enum :=
      (List.mk_mem_enum_iff_getElem?).2 (List.getElem?_eq_getElem hj)
    have := h _ hmem1 _ hmem2
    simp only [ite_eq_right_iff] at this
    by_contra hcmp
    exact Option.some_ne_none _ (this (by simp [hne, hcmp]))
  · intro h iq hiq jq hjq
    obtain ⟨i, x⟩ := iq
    obtain ⟨j, y⟩ := jq
    obtain ⟨hi, hx⟩ :=
      (List.getElem?_eq_some).1 ((List.mk_mem_enum_iff_getElem?).1 hiq)
    obtain ⟨hj, hy⟩ :=
      (List.getElem?_eq_some).1 ((List.mk_mem_enum_iff_getElem?).1 hjq)
    subst hx
    subst hy
    by_cases hne : i = j
    · simp [hne]
    · simp [hne, h i j hi hj hne]

theorem findOverlap_some {Q : Type} (cmp : Q → Q → Ordering) (qs : List Q)
    (i j : Nat) (h : findOverlap cmp qs = some (i, j)) :
    ∃ (hi : i < qs.length) (hj : j < qs.length),
      i ≠ j ∧ cmp qs[i] qs[j] ≠ Ordering.Unordered := by
  obtain ⟨iq, hiq, hinner⟩ := List.exists_of_findSome?_eq_some h
  obtain ⟨jq, hjq, hif⟩ := List.exists_of_findSome?_eq_some hinner
  by_cases hc :
      (iq.1 != jq.1 && cmp iq.2 jq.2 != Ordering.Unordered) = true
  · rw [if_pos hc] at hif
    obtain ⟨hij, hcmp⟩ := Bool.and_eq_true_iff.1 hc
    obtain ⟨rfl, rfl⟩ : iq.1 = i ∧ jq.1 = j := by
      have := Option.some.inj hif
      exact ⟨congrArg Prod.fst this, congrArg Prod.snd this⟩
    obtain ⟨hi, hx⟩ :=
      (List.getElem?_eq_some).1 ((List.mk_mem_enum_iff_getElem?).1 hiq)
    obtain ⟨hj, hy⟩ :=
      (List.getElem?_eq_some).1 ((List.mk_mem_enum_iff_getElem?).1 hjq)
    refine ⟨hi, hj, by simpa using hij, ?_⟩
    rw [hx, hy]
    simpa using hcmp
  · rw [if_neg hc] at hif
    exact absurd hif (Option.noConfusion)

/-- C5 (amended): when the checklist tool finds violations (an
overlapping pair of queries, or a case covered by no query), it reports
exactly one of them — the first the scans hit — and exits via `die`
(`process.exit(1)`) rather than reporting every violation; it reports
nothing if and only if no violation exists, and anything it reports is a
genuine violation. -/
theorem checklistRun_reports_one_violation {Q C : Type}
    (cmpQQ : Q → Q → Ordering) (cmpQC : Q → C → Ordering)
    (qs : List Q) (cases : List C) :
    (checklistRun cmpQQ cmpQC qs cases = none ↔
      ((∀ i j (hi : i < qs.length) (hj : j < qs.length), i ≠ j →
          cmpQQ qs[i] qs[j] = Ordering.Unordered) ∧
        ∀ c ∈ cases, covered cmpQC qs c = true)) ∧
    (∀ i j, checklistRun cmpQQ cmpQC qs cases =
        some (Violation.overlap i j) →
      ∃ (hi : i < qs.length) (hj : j < qs.length),
        i ≠ j ∧ cmpQQ qs[i] qs[j] ≠ Ordering.Unordered) ∧
    (∀ c, checklistRun cmpQQ cmpQC qs cases =
        some (Violation.uncoveredCase c) →
      c ∈ cases ∧ covered cmpQC qs c = false) := by
  refine ⟨⟨?_, ?_⟩, ?_, ?_⟩
  · intro h
    cases hov : findOverlap cmpQQ qs with
    | some ij => simp [checklistRun, hov] at h
    | none =>
      cases hunc : findUncovered cmpQC qs cases with
      | some c => simp [checklistRun, hov, hunc] at h
      | none =>
        refine ⟨(findOverlap_eq_none_iff cmpQQ qs).1 hov, ?_⟩
        intro c hc
        have := (List.find?_eq_none.1 hunc) c hc
        simpa using this
  · rintro ⟨h1, h2⟩
    have hov : findOverlap cmpQQ qs = none :=
      (findOverlap_eq_none_iff cmpQQ qs).2 h1
    have hunc : findUncovered cmpQC qs cases = none := by
      refine List.find?_eq_none.2 ?_
      intro c hc
      simp [h2 c hc]
    simp [checklistRun, hov, hunc]
  · intro i j h
    cases hov : findOverlap cmpQQ qs with
    | none =>
      cases hunc : findUncovered cmpQC qs cases with
      | none => simp [checklistRun, hov, hunc] at h
      | some c => simp [checklistRun, hov, hunc] at h
    | some ij =>
      simp only [checklistRun, hov, Option.some.injEq] at h
      have hij : ij = (i, j) := by
        cases h
        rfl
      exact findOverlap_some cmpQQ qs i j (hij ▸ hov)
  · intro c h
    cases hov : findOverlap cmpQQ qs with
    | some ij => simp [checklistRun, hov] at h
    | none =>
      cases hunc : findUncovered cmpQC qs cases with
      | none => simp [checklistRun, hov, hunc] at h
      | some c' =>
        simp only [checklistRun, hov, hunc, Option.some.injEq] at h
        have : c' = c := by
          cases h
          rfl
        subst this
        refine ⟨List.mem_of_find?_eq_some hunc, ?_⟩
        have := List.find?_some hunc
        simpa using this

/-- C5 counterexample: on a list of four queries in which the pairs
(0, 1) and (2, 3) both overlap, the run reports only the overlap of
queries 0 and 1 and exits; the overlap of queries 2 and 3 — also a
violation on this input — goes unreported, so the tool does not report
every violation found. -/
theorem checklistRun_stops_at_first :
    checklistRun
        (fun a b : Nat =>
          if (a == 0 && b == 1) || (a == 1 && b == 0) ||
              (a == 2 && b == 3) || (a == 3 && b == 2) then
            Ordering.Equal
          else Ordering.Unordered)
        (fun _ _ : Nat => Ordering.Equal) [0, 1, 2, 3] ([] : List Nat) =
      some (Violation.overlap 0 1) ∧
    (if ((2 : Nat) == 2 && (3 : Nat) == 3) ||
          ((2 : Nat) == 3 && (3 : Nat) == 2) ||
          ((2 : Nat) == 2 && (3 : Nat) == 3) ||
          ((2 : Nat) == 3 && (3 : Nat) == 2) then
        Ordering.Equal
      else Ordering.Unordered) ≠ Ordering.Unordered := by
  refine ⟨by decide, by decide⟩

/-- Witness for the amended C5 at a concrete input with no violation. -/
theorem checklistRun_reports_one_violation_witness :
    checklistRun (fun _ _ : Nat => Ordering.Unordered)
      (fun _ _ : Nat => Ordering.Equal) [0] [5] = none := by
  refine (checklistRun_reports_one_violation
    (fun _ _ : Nat => Ordering.Unordered)
    (fun _ _ : Nat => Ordering.Equal) [0] [5]).1.2 ⟨?_, by decide⟩
  intro i j hi hj hne
  simp only [List.length_cons, List.length_nil] at hi hj
  exact absurd (by omega) hne

end Checklist

namespace DevicePool

theorem extractFirstFree_mem {l : List (String × DeviceHolder)}
    (er : (String × DeviceHolder) × List (String × DeviceHolder))
    (h : extractFirstFree l = some er) : er.1 ∈ l := by
  induction l generalizing er with
  | nil => simp [extractFirstFree] at h
  | cons e rest ih =>
    unfold extractFirstFree at h
    by_cases hf : e.2.state = HolderState.free
    · rw [if_pos hf] at h
      cases h
      exact List.mem_cons_self e rest
    · rw [if_neg hf] at h
      cases hr : extractFirstFree rest with
      | none => rw [hr] at h; exact absurd h (Option.noConfusion)
      | some fr =>
        rw [hr] at h
        cases h
        exact List.mem_cons_of_mem e (ih fr hr)

theorem extractFirstFree_length {l : List (String × DeviceHolder)}
    (er : (String × DeviceHolder) × List (String × DeviceHolder))
    (h : extractFirstFree l = some er) : er.2.length + 1 = l.length := by
  induction l generalizing er with
  | nil => simp [extractFirstFree] at h
  | cons e rest ih =>
    unfold extractFirstFree at h
    by_cases hf : e.2.state = HolderState.free
    · rw [if_pos hf] at h
      cases h
      rfl
    · rw [if_neg hf] at h
      cases hr : extractFirstFree rest with
      | none => rw [hr] at h; exact absurd h (Option.noConfusion)
      | some fr =>
        rw [hr] at h
        cases h
        simp [← ih fr hr]

theorem getOrCreate_returned_from (pool : DeviceHolderPool) (key : String)
    (create : CreateResult) (h2 : DeviceHolder) (pool2 : DeviceHolderPool)
    (hret : getOrCreate pool key create =
      GetOrCreateResult.returned h2 pool2) :
    (∃ e ∈ pool.holders, e.2 = h2) ∨ create = CreateResult.success h2 := by
  unfold getOrCreate at hret
  by_cases hk : key ∈ pool.unsupported
  · rw [if_pos hk] at hret
    exact absurd hret (by simp)
  · rw [if_neg hk] at hret
    cases hff : extractFirstFree pool.holders with
    | some er =>
      rw [hff] at hret
      refine Or.inl ⟨er.1, extractFirstFree_mem er hff, ?_⟩
      cases hret
      rfl
    | none =>
      rw [hff] at hret
      cases create with
      | success hnew =>
        simp only [GetOrCreateResult.returned.injEq] at hret
        exact Or.inr (by rw [hret.1])
      | featuresNotSupported => exact absurd hret (by simp)
      | otherError => exact absurd hret (by simp)

/-- C1 evaluated at the failing input: the pool holds a free holder with
key "A" (device 1) ahead of a free holder with key "B" (device 2); a
request for key "B" returns the key-"A" holder (and moves it, with its
own key, to the most-recently-used end) instead of the free holder whose
key matches.  The free-holder search of `getOrCreate` tests only whether
the holder state is `free` and never compares the entry's key with the
request's key, contradicting its own comment ("Search for an existing,
currently-free device with the same descriptor") and the map-by-key
documentation of the class. -/
theorem getOrCreate_ignores_key :
    getOrCreate
        ⟨20, [],
          [("A", ⟨1, HolderState.free, none, none⟩),
            ("B", ⟨2, HolderState.free, none, none⟩)]⟩
        "B" CreateResult.otherError =
      GetOrCreateResult.returned ⟨1, HolderState.free, none, none⟩
        ⟨20, [],
          [("B", ⟨2, HolderState.free, none, none⟩),
            ("A", ⟨1, HolderState.free, none, none⟩)]⟩ ∧
    (1 : Nat) ≠ 2 := by
  refine ⟨by decide, by decide⟩

/-- C2: whenever `DevicePool.release` is called on a holder that is not
`free`, the holder's state is `free` when the call completes, on every
path — whether the internal checks pass, throw a reusable-test failure,
or throw any other error — because the reset sits on `finally` paths in
both `ensureRelease` and `release`. -/
theorem release_always_frees (pool : DeviceHolderPool) (h : DeviceHolder)
    (b : DrainBehavior) (hst : h.state ≠ HolderState.free) :
    (release pool h b).holder.state = HolderState.free := by
  unfold release
  rw [if_neg hst]
  cases hrc : releaseCheckEx h b <;> simp

/-- Witness for C2 at a concrete input. -/
theorem release_always_frees_witness :
    (release ⟨20, [], []⟩ ⟨1, HolderState.acquired, none, none⟩
        ⟨false, false, false, false, false, true⟩).holder.state =
      HolderState.free :=
  release_always_frees ⟨20, [], []⟩ ⟨1, HolderState.acquired, none, none⟩
    ⟨false, false, false, false, false, true⟩ (by decide)

theorem ensureRelease_no_validation {st : HolderState} {b : DrainBehavior}
    (hval : b.validationError = false) :
    (DeviceHolder.ensureRelease st b).1 ≠
      some ReleaseError.testFailedButDeviceReusable := by
  obtain ⟨tO, pR, vE, oE, eS, hD⟩ := b
  subst hval
  unfold DeviceHolder.ensureRelease DeviceHolder.releaseCheck
  cases st <;> cases tO <;> cases pR <;> cases eS <;> cases oE <;> simp

theorem releaseCheckEx_some_of_lost {h : DeviceHolder} {b : DrainBehavior}
    {r : String} (hlost : h.lostReason = some r) :
    ∃ e, releaseCheckEx h b = some e := by
  unfold releaseCheckEx
  cases hE : (DeviceHolder.ensureRelease h.state b).1 with
  | some e => exact ⟨e, rfl⟩
  | none => exact ⟨ReleaseError.otherError, by simp [hlost]⟩

theorem releaseCheckEx_ne_reusable {h : DeviceHolder} {b : DrainBehavior}
    (hval : b.validationError = false) (e : ReleaseError)
    (he : releaseCheckEx h b = some e) :
    e ≠ ReleaseError.testFailedButDeviceReusable := by
  unfold releaseCheckEx at he
  cases hE : (DeviceHolder.ensureRelease h.state b).1 with
  | some e2 =>
    rw [hE] at he
    cases he
    intro hcontra
    exact ensureRelease_no_validation hval (hcontra ▸ hE)
  | none =>
    rw [hE] at he
    by_cases hl : h.lostReason.isSome
    · rw [if_pos hl] at he
      cases he
      simp
    · rw [if_neg hl] at he
      exact absurd he (Option.noConfusion)

theorem expectedDeviceLost_false_of_ne (h : DeviceHolder) (r : String)
    (hlost : h.lostReason = some r)
    (hexp : h.expectedLostReason ≠ some r) :
    expectedDeviceLost h = false := by
  unfold expectedDeviceLost
  rw [hlost]
  cases he : h.expectedLostReason with
  | none => rfl
  | some er =>
    have hne : er ≠ r := fun hh => hexp (by rw [he, hh])
    simp [hne]

theorem expectedDeviceLost_true_of_eq (h : DeviceHolder) (r : String)
    (hlost : h.lostReason = some r)
    (hexp : h.expectedLostReason = some r) :
    expectedDeviceLost h = true := by
  unfold expectedDeviceLost
  rw [hlost, hexp]
  simp

theorem not_mem_devices_deleteFirstByDevice
    (l : List (String × DeviceHolder)) (d : Nat)
    (hcount : (l.map fun e => e.2.device).count d ≤ 1) :
    d ∉ (deleteFirstByDevice l d).map fun e => e.2.device := by
  induction l with
  | nil => simp [deleteFirstByDevice]
  | cons e rest ih =>
    by_cases hd : e.2.device = d
    · rw [deleteFirstByDevice, if_pos hd]
      simp only [List.map_cons, List.count_cons, hd] at hcount
      simp only [beq_self_eq_true, if_true] at hcount
      have : (rest.map fun e => e.2.device).count d = 0 := by omega
      exact (List.count_eq_zero).1 this
    · rw [deleteFirstByDevice, if_neg hd]
      simp only [List.map_cons, List.count_cons] at hcount
      have hc2 : (rest.map fun e => e.2.device).count d ≤ 1 := by
        by_cases hb : e.2.device == d
        · exact absurd (by simpa using hb) hd
        · simpa [hb] using hcount
      simp only [List.map_cons, List.mem_cons]
      rintro (hh | hh)
      · exact hd hh.symm
      · exact ih hc2 hh

/-- C3: releasing a holder whose device was lost for a reason that does
not match a registered `expectDeviceLost` reason propagates an error to
the caller, deletes the holder's device from the pool (so the holder is
not reachable for reuse) and destroys the device; if the loss matches the
holder's expected reason, no error escapes `release`.  The hypothesis
`b.validationError = false` reflects WebGPU device semantics: a lost
device delivers no `GPUValidationError` from its error scopes. -/
theorem release_unexpected_loss (pool : DeviceHolderPool)
    (h : DeviceHolder) (b : DrainBehavior) (r : String)
    (hst : h.state ≠ HolderState.free) (hlost : h.lostReason = some r) :
    (h.expectedLostReason ≠ some r → b.validationError = false →
      (release pool h b).thrown.isSome = true ∧
      (release pool h b).pool = deleteByDevice pool h.device ∧
      (pool.devices.count h.device ≤ 1 →
        h.device ∉ ((release pool h b).pool).devices) ∧
      (b.hasDestroy = true → (release pool h b).destroyed = true)) ∧
    (h.expectedLostReason = some r → (release pool h b).thrown = none) := by
  constructor
  · intro hexp hval
    obtain ⟨e, he⟩ := releaseCheckEx_some_of_lost (b := b) hlost
    have hne := releaseCheckEx_ne_reusable hval e he
    have hexpF := expectedDeviceLost_false_of_ne h r hlost hexp
    unfold release
    rw [if_neg hst, he]
    refine ⟨by simp [hexpF], by simp [hne], ?_, by simp [hne]⟩
    intro hcount
    simp only [hne, if_true, if_pos]
    simpa [deleteByDevice, DeviceHolderPool.devices, hne] using
      not_mem_devices_deleteFirstByDevice pool.holders h.device hcount
  · intro hexp
    obtain ⟨e, he⟩ := releaseCheckEx_some_of_lost (b := b) hlost
    have hexpT := expectedDeviceLost_true_of_eq h r hlost hexp
    unfold release
    rw [if_neg hst, he]
    simp [hexpT]

/-- Witness for C3 at a concrete input. -/
theorem release_unexpected_loss_witness :
    ((⟨1, HolderState.reserved, some "x", none⟩ : DeviceHolder).state ≠
      HolderState.free) ∧
    (release ⟨20, [], []⟩ ⟨1, HolderState.reserved, some "x", none⟩
        ⟨false, false, false, false, false, true⟩).thrown.isSome = true := by
  refine ⟨by decide, ?_⟩
  exact ((release_unexpected_loss ⟨20, [], []⟩
    ⟨1, HolderState.reserved, some "x", none⟩
    ⟨false, false, false, false, false, true⟩ "x" (by decide) rfl).1
    (by decide) rfl).1

/-- C6: when a construction attempt (reached because the key is not yet
cached and no free holder exists) fails with `FeaturesNotSupported`,
`getOrCreate` records the canonical key in the negative cache and throws
the skip signal (`SkipTestCase`), not an error; and any `getOrCreate`
call whose key is in the negative cache throws the skip signal
immediately, leaving the pool untouched and independent of the
construction oracle (no construction is attempted). -/
theorem getOrCreate_negative_cache (pool : DeviceHolderPool)
    (key : String) (hfree : extractFirstFree pool.holders = none)
    (hnot : key ∉ pool.unsupported) :
    (getOrCreate pool key CreateResult.featuresNotSupported =
        GetOrCreateResult.skip
          { pool with unsupported := key :: pool.unsupported } ∧
      key ∈ (getOrCreate pool key
        CreateResult.featuresNotSupported).pool.unsupported) ∧
    ∀ (pool2 : DeviceHolderPool) (create : CreateResult),
      key ∈ pool2.unsupported →
        getOrCreate pool2 key create = GetOrCreateResult.skip pool2 := by
  have h1 : getOrCreate pool key CreateResult.featuresNotSupported =
      GetOrCreateResult.skip
        { pool with unsupported := key :: pool.unsupported } := by
    unfold getOrCreate
    rw [if_neg hnot, hfree]
  refine ⟨⟨h1, ?_⟩, ?_⟩
  · rw [h1]
    exact List.mem_cons_self key pool.unsupported
  · intro pool2 create hmem
    unfold getOrCreate
    rw [if_pos hmem]

/-- Witness for C6 at a concrete input: a key cached as unsupported is
skipped immediately even with a failing construction oracle. -/
theorem getOrCreate_negative_cache_witness :
    getOrCreate ⟨20, ["k"], []⟩ "k" CreateResult.otherError =
      GetOrCreateResult.skip ⟨20, ["k"], []⟩ :=
  (getOrCreate_negative_cache ⟨20, [], []⟩ "k" (by decide)
    (by decide)).2 ⟨20, ["k"], []⟩ CreateResult.otherError (by decide)

theorem insertAndCleanUp_holders (pool : DeviceHolderPool) (key : String)
    (h : DeviceHolder) :
    (insertAndCleanUp pool key h).holders =
      if (pool.holders ++ [(key, h)]).length > pool.poolSize then
        (pool.holders ++ [(key, h)]).tail
      else pool.holders ++ [(key, h)] := rfl

theorem insertAndCleanUp_length_le (pool : DeviceHolderPool) (key : String)
    (h : DeviceHolder) (hlen : pool.holders.length ≤ pool.poolSize) :
    (insertAndCleanUp pool key h).holders.length ≤ pool.poolSize := by
  rw [insertAndCleanUp_holders]
  by_cases hgt : (pool.holders ++ [(key, h)]).length > pool.poolSize
  · rw [if_pos hgt, List.length_tail]
    simp only [List.length_append, List.length_cons, List.length_nil]
    omega
  · rw [if_neg hgt]
    simp only [List.length_append, List.length_cons, List.length_nil,
      gt_iff_lt, not_lt] at hgt
    simp only [List.length_append, List.length_cons, List.length_nil]
    omega

/-- C7: `insertAndCleanUp` keeps the holder list within the fixed
capacity (`kDevicePoolSize = 20` for the pool the `DevicePool` front end
constructs): starting within capacity, it stays within capacity; when the
pushed entry overflows the bound, exactly the head — the least recently
used entry, whatever its state — is evicted and the rest is unchanged;
otherwise the list is just the old list with the entry appended.  The
same bound is preserved by every `getOrCreate` outcome. -/
theorem insertAndCleanUp_bounded (pool : DeviceHolderPool) (key : String)
    (h : DeviceHolder) (hlen : pool.holders.length ≤ pool.poolSize) :
    (insertAndCleanUp pool key h).holders.length ≤ pool.poolSize ∧
    ((pool.holders ++ [(key, h)]).length > pool.poolSize →
      (insertAndCleanUp pool key h).holders =
        (pool.holders ++ [(key, h)]).tail) ∧
    ((pool.holders ++ [(key, h)]).length ≤ pool.poolSize →
      (insertAndCleanUp pool key h).holders =
        pool.holders ++ [(key, h)]) ∧
    (∀ (key2 : String) (create : CreateResult),
      ((getOrCreate pool key2 create).pool).holders.length ≤
        pool.poolSize) ∧
    kDevicePoolSize = 20 := by
  refine ⟨insertAndCleanUp_length_le pool key h hlen, ?_, ?_, ?_, rfl⟩
  · intro hgt
    rw [insertAndCleanUp_holders, if_pos hgt]
  · intro hle
    rw [insertAndCleanUp_holders, if_neg (by omega)]
  · intro key2 create
    unfold getOrCreate
    by_cases hk : key2 ∈ pool.unsupported
    · rw [if_pos hk]
      exact hlen
    · rw [if_neg hk]
      cases hff : extractFirstFree pool.holders with
      | some er =>
        have hl := extractFirstFree_length er hff
        simp only [GetOrCreateResult.pool, List.length_append,
          List.length_cons, List.length_nil]
        omega
      | none =>
        cases create with
        | success hnew =>
          exact insertAndCleanUp_length_le pool key2 hnew hlen
        | featuresNotSupported => exact hlen
        | otherError => exact hlen

/-- Witness for C7 at a concrete input. -/
theorem insertAndCleanUp_bounded_witness :
    (insertAndCleanUp ⟨1, [], [("A", ⟨1, HolderState.free, none, none⟩)]⟩
        "B" ⟨2, HolderState.free, none, none⟩).holders.length ≤ 1 :=
  (insertAndCleanUp_bounded
    ⟨1, [], [("A", ⟨1, HolderState.free, none, none⟩)]⟩ "B"
    ⟨2, HolderState.free, none, none⟩ (by decide)).1

/-- C10 (implicit): whenever the internal release check throws any error
other than `TestFailedButDeviceReusable`, `DevicePool.release` deletes
the holder's device from the pool and destroys the device, and it does so
whether or not the loss was expected — in particular, when the loss
matches `expectedLostReason`, no error propagates to the caller, yet the
holder is still removed, so a later `reserve`/`getOrCreate` can never
return a holder with that device (any returned holder comes from the
remaining pool entries or from a fresh construction). -/
theorem release_removes_holder (pool : DeviceHolderPool)
    (h : DeviceHolder) (b : DrainBehavior) (e : ReleaseError)
    (hst : h.state ≠ HolderState.free)
    (hex : releaseCheckEx h b = some e)
    (hne : e ≠ ReleaseError.testFailedButDeviceReusable) :
    (release pool h b).pool = deleteByDevice pool h.device ∧
    (b.hasDestroy = true → (release pool h b).destroyed = true) ∧
    (expectedDeviceLost h = true → (release pool h b).thrown = none) ∧
    (pool.devices.count h.device ≤ 1 →
      h.device ∉ ((release pool h b).pool).devices ∧
      ∀ (key : String) (create : CreateResult) (h2 : DeviceHolder)
        (pool2 : DeviceHolderPool),
        getOrCreate (release pool h b).pool key create =
          GetOrCreateResult.returned h2 pool2 →
        (∀ hnew, create = CreateResult.success hnew →
          hnew.device ≠ h.device) →
        h2.device ≠ h.device) := by
  have hpool : (release pool h b).pool = deleteByDevice pool h.device := by
    unfold release
    rw [if_neg hst, hex]
    simp [hne]
  refine ⟨hpool, ?_, ?_, ?_⟩
  · intro hd
    unfold release
    rw [if_neg hst, hex]
    simp [hne, hd]
  · intro hexp
    unfold release
    rw [if_neg hst, hex]
    simp [hexp]
  · intro hcount
    have hnotmem : h.device ∉ ((release pool h b).pool).devices := by
      rw [hpool]
      exact not_mem_devices_deleteFirstByDevice pool.holders h.device hcount
    refine ⟨hnotmem, ?_⟩
    intro key create h2 pool2 hret hfresh
    rcases getOrCreate_returned_from _ key create h2 pool2 hret with
      ⟨entry, hmem, hent⟩ | hcr
    · intro hdev
      exact hnotmem (by
        rw [← hdev, ← hent]
        exact List.mem_map_of_mem (fun e => e.2.device) hmem)
    · exact hfresh h2 hcr

/-- Witness for C10 at a concrete input: an expected loss (reasons
match), so nothing propagates, yet the holder's device is removed. -/
theorem release_removes_holder_witness :
    (release ⟨20, [], [("A", ⟨1, HolderState.reserved, some "x", some "x"⟩)]⟩
        ⟨1, HolderState.reserved, some "x", some "x"⟩
        ⟨false, false, false, false, false, true⟩).pool =
      deleteByDevice
        ⟨20, [], [("A", ⟨1, HolderState.reserved, some "x", some "x"⟩)]⟩
        1 :=
  (release_removes_holder
    ⟨20, [], [("A", ⟨1, HolderState.reserved, some "x", some "x"⟩)]⟩
    ⟨1, HolderState.reserved, some "x", some "x"⟩
    ⟨false, false, false, false, false, true⟩ ReleaseError.otherError
    (by decide) (by decide) (by decide)).1

end DevicePool



